import Mathlib

/-!
Verification development for the step-debugger subsystem of the
formula-editor repository.

The embedding translates the debugger code of
`src/components/DebugModal.tsx` (the debug session controller) and
`src/api/computation-engines/manual/interpreter.ts` (the interpreter
adapter: scope resolver, variable collector, initialization) into Lean.

Modelling conventions:
* JavaScript runtime values are `JSValue`; the JS `undefined` is
  `JSValue.undef`.  JS numbers are IEEE doubles, but every numeric value the
  verified properties exercise is a small integer, so numbers are modelled
  as `Int`.
* The loosely typed AST nodes the interpreter exposes (`frame.node`) are
  modelled as the tagged union `Node`, keyed by the `type` tag the source
  probes (`"Literal"`, `"ArrayExpression"`, `"CallExpression"`, anything
  else).  Field probes such as `node.callee?.name` become `Option`-valued
  accessors.
* The third-party JS-Interpreter instance is the structure `JSInterpreter`:
  a snapshot of its state stack, its current `value`, the heap property
  lookup `getProp` (the library's `getProperty`, which the source calls on
  a frame's `scope.object` reference and which may throw), and the optional
  `pseudoToNative` conversion.  Its internal step relation is external to
  the repository and is therefore a parameter (`Ctx.stepFn`); a `step()`
  call either throws (`Except.error`) or returns the `canContinue` flag
  and the successor interpreter state.
* React component state (`useState`/`useRef`) becomes the explicit record
  `Session`; every handler becomes a function from `Session` to `Session`
  (plus the events it emits).  A handler reads the state captured at its
  invocation (React closure semantics) while `setHistory (prev => ...)`
  appends are applied to the threaded value; this distinction is modelled
  faithfully, in particular for the stale `history.length` reads inside
  `stepToView`'s loops.
* Wall-clock timestamps and the purely diagnostic entries of a snapshot's
  `variables` record ("Current Node Type", "Stack Depth", "Node Info", ...)
  are display-only and are omitted from `DebugState`.
-/

/-! ## Definitions: the embedded data model, operations and sample inputs -/

/-- A JavaScript runtime value, as far as the debugger observes one. -/
inductive JSValue where
  | undef
  | null
  | boolean (b : Bool)
  | num (n : Int)
  | str (s : String)
  | obj (ref : Nat)
deriving DecidableEq

/-- The JS `String(v)` coercion, on the values the debugger passes to it
(literal values of `view` pair arguments). -/
def jsString : JSValue → String
  | .undef => "undefined"
  | .null => "null"
  | .boolean b => if b then "true" else "false"
  | .num n => toString n
  | .str s => s
  | .obj _ => "[object Object]"

/-- The loosely typed syntax node carried by an interpreter stack frame,
as a tagged union keyed by the `type` tag the source probes. Node kinds
whose extra fields feed only the diagnostic display (`Identifier`,
`VariableDeclaration`, ...) are collapsed into `other` with their tag. -/
inductive Node where
  | literal (value : JSValue) (startPos endPos : Nat)
  | arrayExpression (elements : List Node) (startPos endPos : Nat)
  | callExpression (calleeName : Option String) (args : List Node) (startPos endPos : Nat)
  | other (kind : String) (startPos endPos : Nat)

/-- The `type` tag of a node. -/
def Node.type : Node → String
  | .literal .. => "Literal"
  | .arrayExpression .. => "ArrayExpression"
  | .callExpression .. => "CallExpression"
  | .other kind _ _ => kind

/-- The `start` byte offset of a node. -/
def Node.start : Node → Nat
  | .literal _ s _ => s
  | .arrayExpression _ s _ => s
  | .callExpression _ _ s _ => s
  | .other _ s _ => s

/-- The `end` byte offset of a node. -/
def Node.stop : Node → Nat
  | .literal _ _ e => e
  | .arrayExpression _ _ e => e
  | .callExpression _ _ _ e => e
  | .other _ _ e => e

/-- The probe `node.callee?.name`: the callee identifier of a call node. -/
def Node.callee : Node → Option String
  | .callExpression c _ _ _ => c
  | _ => none

/-- The probe `node.arguments`: the argument list of a call node
(`node.arguments?.[i]` is `undefined` on any other node, modelled by `[]`). -/
def Node.argList : Node → List Node
  | .callExpression _ a _ _ => a
  | _ => []

/-- Outcome of one `interpreter.getProperty(scopeObject, name)` call:
the property's value (possibly `undefined`), or a thrown exception. -/
inductive LookupOutcome where
  | ok (v : JSValue)
  | err

/-- One entry of the interpreter's state stack, as probed by the source
(`StackFrame` of interpreter.ts): the active node, the frame's
`scope?.object` heap reference, and `func?.node?.id?.name`. -/
structure StackFrame where
  node : Option Node
  scopeObject : Option Nat
  funcName : Option String

/-- The default used when indexing a stack list out of range; the source
never does so under its guards. -/
def defaultFrame : StackFrame := { node := none, scopeObject := none, funcName := none }

/-- A snapshot of the third-party JS-Interpreter instance: its
`getStateStack()`, its `value`, the heap property lookup `getProperty`
(partially applied to a `scope.object` reference; conversion failures
inside the enclosing `try` are folded into `LookupOutcome.err`), and the
optional `pseudoToNative` conversion. -/
structure JSInterpreter where
  stateStack : List StackFrame
  value : JSValue
  getProp : Nat → String → LookupOutcome
  pseudoToNative : Option (JSValue → JSValue)

/-- interpreter.ts `getScopeName`: `"Global"` for stack index 0, otherwise
`"Local-" ++ (stackLength - 1 - index)` (Nat subtraction agrees with the
JS arithmetic for every index below `stackLength`). -/
def getScopeName (index : Nat) (stackLength : Nat) : String :=
  if index = 0 then "Global" else "Local-" ++ toString (stackLength - 1 - index)

/-- interpreter.ts `convertToNativeValue`: apply `pseudoToNative` when the
interpreter provides it, else the identity. -/
def convertToNativeValue (interpreter : JSInterpreter) (value : JSValue) : JSValue :=
  match interpreter.pseudoToNative with
  | some f => f value
  | none => value

/-- Result record of the scope resolver (`{found, value?, scopeName}`);
an absent `value` field is JS `undefined`. -/
structure FindResult where
  found : Bool
  value : JSValue
  scopeName : String
deriving DecidableEq

/-- interpreter.ts `findVariableInFrame`: look the name up on the frame's
scope object; a missing scope object, an `undefined` value, or a thrown
lookup is a non-fatal miss. -/
def findVariableInFrame (interpreter : JSInterpreter) (frame : StackFrame)
    (varName : String) (frameIndex stackLength : Nat) : FindResult :=
  let scopeName := getScopeName frameIndex stackLength
  match frame.scopeObject with
  | none => { found := false, value := JSValue.undef, scopeName := scopeName }
  | some objRef =>
    match interpreter.getProp objRef varName with
    | .err => { found := false, value := JSValue.undef, scopeName := scopeName }
    | .ok v =>
      if v = JSValue.undef then
        { found := false, value := JSValue.undef, scopeName := scopeName }
      else
        { found := true, value := convertToNativeValue interpreter v, scopeName := scopeName }

/-- The loop of `findVariableInStack`: try frame indices
`k-1, k-2, ..., 0` in that order (the source iterates
`i = stack.length - 1` down to `0`). -/
def findVarAux (interpreter : JSInterpreter) (stack : List StackFrame)
    (varName : String) : Nat → FindResult
  | 0 => { found := false, value := JSValue.undef, scopeName := "" }
  | k + 1 =>
    let result := findVariableInFrame interpreter (stack.getD k defaultFrame)
        varName k stack.length
    if result.found then result else findVarAux interpreter stack varName k

/-- interpreter.ts `findVariableInStack`: search frames from the top of the
stack (innermost) to the bottom (global); the first hit wins. -/
def findVariableInStack (interpreter : JSInterpreter) (stack : List StackFrame)
    (varName : String) : FindResult :=
  findVarAux interpreter stack varName stack.length

/-- One iteration of the collection loop of `collectVariablesFromStack`:
record the resolved value under the name unless the name already has an
entry or it resolved to nothing. -/
def collectStep (interpreter : JSInterpreter) (stack : List StackFrame)
    (vars : List (String × JSValue)) (varName : String) : List (String × JSValue) :=
  let result := findVariableInStack interpreter stack varName
  if result.found && !(result.value = JSValue.undef : Bool)
      && !((vars.map Prod.fst).contains varName) then
    vars ++ [(varName, result.value)]
  else
    vars

/-- interpreter.ts `collectVariablesFromStack`: empty stack or empty name
list yields the empty record at once; otherwise resolve each requested
name in turn. The JS record is modelled as an insertion-ordered
association list with distinct keys. -/
def collectVariablesFromStack (interpreter : JSInterpreter) (stack : List StackFrame)
    (varNames : List String) : List (String × JSValue) :=
  if stack.isEmpty || varNames.isEmpty then []
  else varNames.foldl (collectStep interpreter stack) []

/-- Modelled from the spec: `isAtView`, the Breakpoint Detector.  The
function is imported by DebugModal.tsx from the interpreter module but its
body is not among the provided sources; per the spec it is "true exactly
when the top-of-stack frame's current node is a call whose callee
identifier is named `view`", a pure, stateless predicate over the
interpreter's current snapshot. -/
def isAtView (interpreter : JSInterpreter) : Bool :=
  match interpreter.stateStack.getLast? with
  | none => false
  | some frame =>
    match frame.node with
    | none => false
    | some n => n.callee == some "view"

/-- One element of a `view` call's first-argument array, as the extraction
loop of `getCurrentState` (DebugModal.tsx) handles it: a pair is emitted
exactly when the element is itself an array node of at least two elements
whose first two are literal nodes; every other shape is skipped. -/
def pairOfElement : Node → Option (String × String)
  | .arrayExpression (first :: second :: _) _ _ =>
    match first, second with
    | .literal v1 _ _, .literal v2 _ _ => some (jsString v1, jsString v2)
    | _, _ => none
  | _ => none

/-- Whether an element has the shape from which `pairOfElement` emits a
pair: a literal array of at least two elements whose first two elements
are literal nodes. -/
def isPairShape : Node → Bool
  | .arrayExpression (first :: second :: _) _ _ =>
    (match first with | .literal .. => true | _ => false)
      && (match second with | .literal .. => true | _ => false)
  | _ => false

/-- The View-Argument Extractor as a standalone function: the ordered
(name, label) pairs the extraction code of `getCurrentState` reads off the
top frame's current node (empty unless that node is a `view` call whose
first argument is an array node). -/
def viewPairsOf (interpreter : JSInterpreter) : List (String × String) :=
  match interpreter.stateStack.getLast? with
  | none => []
  | some frame =>
    match frame.node with
    | none => []
    | some n =>
      if n.callee == some "view" then
        match n.argList.head? with
        | some (Node.arrayExpression elements _ _) => elements.filterMap pairOfElement
        | _ => []
      else []

/-- One captured execution snapshot (DebugModal.tsx `DebugState`).  The
wall-clock `timestamp` field and the diagnostic entries of the variables
record are display-only and omitted; the source's `variables` field is
named `vars` here because `variables` is a reserved word in Lean. -/
structure DebugState where
  step : Nat
  highlightStart : Nat
  highlightStop : Nat
  vars : List (String × JSValue)
  stackTrace : List String
  viewVariables : List (String × JSValue)
deriving DecidableEq

/-- The default used when indexing history out of range; the source never
does so under its guards. -/
def defaultDebugState : DebugState :=
  { step := 0, highlightStart := 0, highlightStop := 0,
    vars := [], stackTrace := [], viewVariables := [] }

/-- A notification pushed to the downstream formula/variable store
(`updateStepModeVariables viewVariables pairs`): the resolved values and
the ordered (name, label) pairs of the breakpoint. -/
structure Notification where
  viewVariables : List (String × JSValue)
  pairs : List (String × String)
deriving DecidableEq

/-- The human-readable description of stack entry `i`
(`Frame i: <node type> (<function name>)`). -/
def frameDescription (i : Nat) (frame : StackFrame) : String :=
  "Frame " ++ toString i ++ ": "
    ++ (match frame.node with | some n => n.type | none => "Unknown")
    ++ (match frame.funcName with | some nm => " (" ++ nm ++ ")" | none => "")

/-- DebugModal.tsx `getCurrentState`: capture a snapshot of the current
interpreter state under the given step number, together with the
notifications pushed to the downstream store (the `updateStepModeVariables`
call when paused at a `view` breakpoint with a nonempty extracted pair
list).  `varNames` is the declared-variable name list that
`extractVariableNames(code)` (util/acorn, not among the provided sources)
yields for the program text; it is threaded as a parameter. -/
def getCurrentState (varNames : List String) (interpreter : JSInterpreter)
    (stepNumber : Nat) : DebugState × List Notification :=
  let stack := interpreter.stateStack
  let node : Option Node :=
    match stack.getLast? with
    | some frame => frame.node
    | none => none
  let vars := collectVariablesFromStack interpreter stack varNames
  let atView := isAtView interpreter
  let (viewVars, notifs) :=
    if atView then
      match stack.getLast? with
      | none => ([], [])
      | some currentFrame =>
        match currentFrame.node with
        | none => ([], [])
        | some n =>
          if n.callee == some "view" then
            match n.argList.head? with
            | some (Node.arrayExpression elements _ _) =>
              let pairs := elements.filterMap pairOfElement
              if pairs.isEmpty then ([], [])
              else
                let viewVarNames := pairs.map Prod.fst
                let vv := collectVariablesFromStack interpreter stack viewVarNames
                (vv, [{ viewVariables := vv, pairs := pairs }])
            | _ => ([], [])
          else ([], [])
    else ([], [])
  ({ step := stepNumber,
     highlightStart := match node with | some n => n.start | none => 0,
     highlightStop := match node with | some n => n.stop | none => 0,
     vars := vars,
     stackTrace := stack.enum.map fun p => frameDescription p.1 p.2,
     viewVariables := viewVars },
   notifs)

/-- The host capabilities `initializeInterpreter` consults: whether
`window.Interpreter` is loaded, and the interpreter constructor
`new Interpreter(code, initFunc)` — the constructor parses the program and
either throws (its message) or returns an instance; the environment of
named values bound by `initFunc` is part of this constructor. -/
structure Host where
  interpreterAvailable : Bool
  construct : String → Except String JSInterpreter

/-- interpreter.ts `initializeInterpreter`: fails (calls `setError`,
returns no engine, modelled as `Except.error` of the reported message)
when the interpreter capability is missing, the code is empty or
whitespace-only, or construction throws — in which case the report wraps
the parse error text. -/
def initializeInterpreter (host : Host) (currentCode : String) :
    Except String JSInterpreter :=
  if host.interpreterAvailable = false then
    .error "JS-Interpreter not loaded. Please refresh the page."
  else if currentCode.trim = "" then
    .error "No code available to execute"
  else
    match host.construct currentCode with
    | .ok interpreter => .ok interpreter
    | .error msg => .error ("Code error: " ++ msg)

/-- The debug session's component state (DebugModal.tsx `useState`/`useRef`
fields): the interpreter instance, the execution history, the control
flags, the surfaced error message, and whether the auto-play interval
timer is active. -/
structure Session where
  interp : Option JSInterpreter
  history : List DebugState
  isComplete : Bool
  isRunning : Bool
  isSteppingToView : Bool
  error : Option String
  autoPlayTimer : Bool

/-- The collaborators a controller invocation closes over: the host
capabilities, the program text, the declared-variable names
(`extractVariableNames(code)`), and the external interpreter's `step()`
relation — a step either throws (`Except.error`, the execution error
text) or returns `(canContinue, successor state)`. -/
structure Ctx where
  host : Host
  code : String
  varNames : List String
  stepFn : JSInterpreter → Except String (Bool × JSInterpreter)

/-- The session every field-reset of `refresh` produces before
initialization is attempted: no interpreter, empty history, all flags
cleared, no error, auto-play timer cancelled. -/
def clearedSession : Session :=
  { interp := none, history := [], isComplete := false, isRunning := false,
    isSteppingToView := false, error := none, autoPlayTimer := false }

/-- DebugModal.tsx `refresh`: tear the session down wholesale, then — when
the program text is nonempty — construct a fresh interpreter, capture
snapshot 0 and reset history to it.  On an empty program or a failed
construction the torn-down session is left with only the error set.  The
previous session is never read, so nothing of it is retained. -/
def refresh (ctx : Ctx) (_s : Session) : Session :=
  if ctx.code.trim = "" then
    { clearedSession with error := some "No code to debug" }
  else
    match initializeInterpreter ctx.host ctx.code with
    | .error e => { clearedSession with error := some e }
    | .ok newInterpreter =>
      let initialState := (getCurrentState ctx.varNames newInterpreter 0).1
      { clearedSession with interp := some newInterpreter, history := [initialState] }

/-- DebugModal.tsx `stepForward`: one `step()`, one appended snapshot
(step number = invocation-time `history.length`), completion handling,
breakpoint-flag handling; a thrown step surfaces an execution error and
stops auto-play without appending.  Returns the updated session and the
notifications pushed downstream. -/
def stepForward (ctx : Ctx) (s : Session) : Session × List Notification :=
  match s.interp with
  | none => (s, [])
  | some interpreter =>
    if s.isComplete then (s, [])
    else
      match ctx.stepFn interpreter with
      | .error err =>
        ({ s with error := some ("Execution error: " ++ err), isRunning := false,
                  isSteppingToView := false, autoPlayTimer := false }, [])
      | .ok (canContinue, interpreter1) =>
        let res := getCurrentState ctx.varNames interpreter1 s.history.length
        let s1 := { s with interp := some interpreter1, history := s.history ++ [res.1] }
        let s2 :=
          if canContinue = false then
            { s1 with isComplete := true, isRunning := false,
                      isSteppingToView := false, autoPlayTimer := false }
          else s1
        let s3 :=
          if s.isSteppingToView && isAtView interpreter1 then
            { s2 with isSteppingToView := false }
          else s2
        (s3, res.2)

/-- DebugModal.tsx `stepBackward`: a pure view operation — when history
has at least two entries, re-emit the second-to-last snapshot's recorded
highlight range; the session itself is returned untouched, no `step()` is
available to it and nothing is appended. -/
def stepBackward (s : Session) : Session × Option (Nat × Nat) :=
  if s.history.length ≤ 1 then (s, none)
  else
    let prevState := s.history.getD (s.history.length - 2) defaultDebugState
    (s, some (prevState.highlightStart, prevState.highlightStop))

/-- The step ceiling of `stepToView` (`const maxSteps = 100000`). -/
def maxSteps : Nat := 100000

/-- How the first loop of `stepToView` (step past the current `view`
breakpoint) ends: the step threw, the program completed, or the loop
condition became false (no longer at the same view, or the shared step
counter reached the ceiling). -/
inductive P1Exit where
  | threw (msg : String)
  | completed
  | stopped
deriving DecidableEq

/-- State carried out of the first `stepToView` loop: the interpreter, the
threaded history, the shared step counter, the notifications emitted so
far, and how the loop ended. -/
structure P1Res where
  itp : JSInterpreter
  hist : List DebugState
  count : Nat
  notifs : List Notification
  exit : P1Exit

/-- First loop of `stepToView`
(`while (stillAtSameView && stepsCount < maxSteps)`), with
`fuel = maxSteps - stepsCount` as the recursion measure.  `histLen` is the
invocation-time `history.length`, which the source reads as the step
number of every snapshot captured inside the loop (a stale React closure
value). -/
def stepPastView (ctx : Ctx) (histLen : Nat) :
    Nat → Bool → JSInterpreter → List DebugState → Nat → List Notification → P1Res
  | _, false, itp, hist, count, ns => ⟨itp, hist, count, ns, .stopped⟩
  | 0, _, itp, hist, count, ns => ⟨itp, hist, count, ns, .stopped⟩
  | fuel + 1, true, itp, hist, count, ns =>
    match ctx.stepFn itp with
    | .error e => ⟨itp, hist, count, ns, .threw e⟩
    | .ok (canContinue, itp1) =>
      let res := getCurrentState ctx.varNames itp1 histLen
      let hist1 := hist ++ [res.1]
      let ns1 := ns ++ res.2
      if canContinue = false then ⟨itp1, hist1, count + 1, ns1, .completed⟩
      else stepPastView ctx histLen fuel (isAtView itp1) itp1 hist1 (count + 1) ns1

/-- How the second loop of `stepToView` (seek the next `view` breakpoint)
ends: the step threw, the program completed, a breakpoint was found, or
the shared step counter reached the ceiling. -/
inductive P2Exit where
  | threw (msg : String)
  | completed
  | found
  | stopped
deriving DecidableEq

/-- State carried out of the second `stepToView` loop. -/
structure P2Res where
  itp : JSInterpreter
  hist : List DebugState
  count : Nat
  notifs : List Notification
  exit : P2Exit

/-- Second loop of `stepToView`
(`while (!foundNextView && stepsCount < maxSteps)`), with
`fuel = maxSteps - stepsCount` as the recursion measure and the same
stale `histLen` step number. -/
def seekNextView (ctx : Ctx) (histLen : Nat) :
    Nat → JSInterpreter → List DebugState → Nat → List Notification → P2Res
  | 0, itp, hist, count, ns => ⟨itp, hist, count, ns, .stopped⟩
  | fuel + 1, itp, hist, count, ns =>
    match ctx.stepFn itp with
    | .error e => ⟨itp, hist, count, ns, .threw e⟩
    | .ok (canContinue, itp1) =>
      let res := getCurrentState ctx.varNames itp1 histLen
      let hist1 := hist ++ [res.1]
      let ns1 := ns ++ res.2
      if canContinue = false then ⟨itp1, hist1, count + 1, ns1, .completed⟩
      else if isAtView itp1 then ⟨itp1, hist1, count + 1, ns1, .found⟩
      else seekNextView ctx histLen fuel itp1 hist1 (count + 1) ns1

/-- Which return path a `stepToView` invocation took.  This tag and the
step-call counter are instrumentation added by the model (ghost outputs);
the session component mirrors the source's state updates. -/
inductive StvExit where
  | noRun
  | threw
  | completed
  | ceilingPast
  | foundView
  | ceilingSeek
  | fellThrough
deriving DecidableEq

/-- DebugModal.tsx `stepToView`: guard, set the stepping flag, step past a
current `view` breakpoint, then seek the next one, both loops sharing one
step counter capped at `maxSteps`; reaching the cap surfaces a
"Maximum steps" error and clears the stepping flag without completing.
Returns the updated session, the total number of `step()` calls made, the
notifications emitted, and the return-path tag (the latter three are
instrumentation). -/
def stepToView (ctx : Ctx) (s : Session) :
    Session × Nat × List Notification × StvExit :=
  match s.interp with
  | none => (s, 0, [], .noRun)
  | some interpreter =>
    if s.isComplete then (s, 0, [], .noRun)
    else
      let s1 := { s with isSteppingToView := true }
      let histLen := s1.history.length
      let p1 :=
        if isAtView interpreter then
          stepPastView ctx histLen maxSteps true interpreter s1.history 0 []
        else ⟨interpreter, s1.history, 0, [], .stopped⟩
      match p1 with
      | ⟨itp1, hist1, c1, ns1, .threw e⟩ =>
        ({ s1 with interp := some itp1, history := hist1,
                   error := some ("Execution error: " ++ e), isSteppingToView := false },
         c1, ns1, .threw)
      | ⟨itp1, hist1, c1, ns1, .completed⟩ =>
        ({ s1 with interp := some itp1, history := hist1,
                   isComplete := true, isSteppingToView := false },
         c1, ns1, .completed)
      | ⟨itp1, hist1, c1, ns1, .stopped⟩ =>
        if maxSteps ≤ c1 then
          ({ s1 with interp := some itp1, history := hist1,
                     error := some "Maximum steps reached while trying to step past view() breakpoint",
                     isSteppingToView := false },
           c1, ns1, .ceilingPast)
        else
          match seekNextView ctx histLen (maxSteps - c1) itp1 hist1 c1 ns1 with
          | ⟨itp2, hist2, c2, ns2, .threw e⟩ =>
            ({ s1 with interp := some itp2, history := hist2,
                       error := some ("Execution error: " ++ e), isSteppingToView := false },
             c2, ns2, .threw)
          | ⟨itp2, hist2, c2, ns2, .completed⟩ =>
            ({ s1 with interp := some itp2, history := hist2,
                       isComplete := true, isSteppingToView := false },
             c2, ns2, .completed)
          | ⟨itp2, hist2, c2, ns2, .found⟩ =>
            ({ s1 with interp := some itp2, history := hist2, isSteppingToView := false },
             c2, ns2, .foundView)
          | ⟨itp2, hist2, c2, ns2, .stopped⟩ =>
            if maxSteps ≤ c2 then
              ({ s1 with interp := some itp2, history := hist2,
                         error := some "Maximum steps reached while looking for next View",
                         isSteppingToView := false },
               c2, ns2, .ceilingSeek)
            else
              ({ s1 with interp := some itp2, history := hist2 }, c2, ns2, .fellThrough)

/-- A scope lookup on which every property is `undefined`. -/
def noScopeLookup : Nat → String → LookupOutcome := fun _ _ => .ok JSValue.undef

/-- A bottom-of-stack frame holding the whole-program node, no scope. -/
def programFrame : StackFrame :=
  { node := some (Node.other "Program" 0 40), scopeObject := none, funcName := none }

/-- An interpreter whose two frames both bind `x`: the global frame
(heap object 0) to `1`, the inner frame (heap object 1) to `2`. -/
def shadowInterp : JSInterpreter :=
  { stateStack :=
      [ { node := some (Node.other "Program" 0 40), scopeObject := some 0, funcName := none },
        { node := some (Node.other "BlockStatement" 5 30), scopeObject := some 1,
          funcName := some "f" } ],
    value := JSValue.undef,
    getProp := fun ref n =>
      if n = "x" then (if ref = 0 then .ok (JSValue.num 1) else .ok (JSValue.num 2))
      else .ok JSValue.undef,
    pseudoToNative := none }

/-- The node of `view([["x","X"],["y","Y"]])`: first pair. -/
def pairNodeXX : Node :=
  Node.arrayExpression
    [Node.literal (JSValue.str "x") 7 10, Node.literal (JSValue.str "X") 11 14] 6 15

/-- The node of `view([["x","X"],["y","Y"]])`: second pair. -/
def pairNodeYY : Node :=
  Node.arrayExpression
    [Node.literal (JSValue.str "y") 17 20, Node.literal (JSValue.str "Y") 21 24] 16 25

/-- The call node of `view([["x","X"],["y","Y"]])`. -/
def viewNodeXY : Node :=
  Node.callExpression (some "view")
    [Node.arrayExpression [pairNodeXX, pairNodeYY] 5 27] 0 28

/-- An interpreter paused at the `view([["x","X"],["y","Y"]])` call. -/
def itpViewXY : JSInterpreter :=
  { stateStack :=
      [programFrame,
       { node := some viewNodeXY, scopeObject := none, funcName := none }],
    value := JSValue.undef, getProp := noScopeLookup, pseudoToNative := none }

/-- The malformed arity-1 element of `view([["x"]])`. -/
def arityOneNode : Node :=
  Node.arrayExpression [Node.literal (JSValue.str "x") 7 10] 6 11

/-- The call node of `view([["x"]])`. -/
def viewNodeArity1 : Node :=
  Node.callExpression (some "view")
    [Node.arrayExpression [arityOneNode] 5 13] 0 14

/-- An interpreter paused at the malformed `view([["x"]])` call. -/
def itpViewArity1 : JSInterpreter :=
  { stateStack :=
      [programFrame,
       { node := some viewNodeArity1, scopeObject := none, funcName := none }],
    value := JSValue.undef, getProp := noScopeLookup, pseudoToNative := none }

/-- The ceiling behaviour claim C2 asserts of a `stepToView` return value:
on either ceiling return path the corresponding "Maximum steps" error is
surfaced, the stepping-to-breakpoint flag is cleared, and the session is
not marked complete (its completion flag is the invocation's). -/
def ceilingBehaviour (s : Session) (r : Session × Nat × List Notification × StvExit) : Prop :=
  match r.2.2.2 with
  | .ceilingPast =>
      r.1.error = some "Maximum steps reached while trying to step past view() breakpoint"
      ∧ r.1.isSteppingToView = false ∧ r.1.isComplete = s.isComplete
  | .ceilingSeek =>
      r.1.error = some "Maximum steps reached while looking for next View"
      ∧ r.1.isSteppingToView = false ∧ r.1.isComplete = s.isComplete
  | _ => True

/-- An interpreter whose single frame holds the whole-program node and
whose `value` is `0`; the staged step relations below key on `value`. -/
def startFrameOnly : JSInterpreter :=
  { stateStack := [programFrame], value := JSValue.num 0,
    getProp := noScopeLookup, pseudoToNative := none }

/-- A step relation whose single successful step lands on the malformed
`view([["x"]])` call. -/
def toArity1StepFn : JSInterpreter → Except String (Bool × JSInterpreter) := fun itp =>
  match itp.value with
  | .num 0 => .ok (true, itpViewArity1)
  | _ => .ok (false, itp)

/-- The context stepping onto the malformed view call. -/
def arity1Ctx : Ctx :=
  { host := { interpreterAvailable := true, construct := fun _ => .ok startFrameOnly },
    code := "view demo", varNames := [], stepFn := toArity1StepFn }

/-- A freshly initialized session for `arity1Ctx`. -/
def arity1Session : Session :=
  { interp := some startFrameOnly, history := [(getCurrentState [] startFrameOnly 0).1],
    isComplete := false, isRunning := false, isSteppingToView := false,
    error := none, autoPlayTimer := false }

/-- The well-formed call node of `view([["x","X value"]])`. -/
def viewNodeX1 : Node :=
  Node.callExpression (some "view")
    [Node.arrayExpression
      [Node.arrayExpression
        [Node.literal (JSValue.str "x") 7 10,
         Node.literal (JSValue.str "X value") 11 20] 6 21] 5 22] 0 23

/-- An interpreter paused at `view([["x","X value"]])` whose inner scope
(heap object 1) binds `x` to `7`. -/
def witViewInterp : JSInterpreter :=
  { stateStack :=
      [ { node := some (Node.other "Program" 0 40), scopeObject := some 0, funcName := none },
        { node := some viewNodeX1, scopeObject := some 1, funcName := none } ],
    value := JSValue.num 5,
    getProp := fun ref n =>
      if ref = 1 ∧ n = "x" then .ok (JSValue.num 7) else .ok JSValue.undef,
    pseudoToNative := none }

/-- A step relation whose single successful step lands on
`view([["x","X value"]])`. -/
def witStepFn : JSInterpreter → Except String (Bool × JSInterpreter) := fun itp =>
  match itp.value with
  | .num 0 => .ok (true, witViewInterp)
  | _ => .ok (false, itp)

/-- The context stepping onto the well-formed view call. -/
def witCtx : Ctx :=
  { host := { interpreterAvailable := true, construct := fun _ => .ok startFrameOnly },
    code := "view demo", varNames := [], stepFn := witStepFn }

/-- A freshly initialized session for `witCtx`. -/
def witSession : Session :=
  { interp := some startFrameOnly, history := [(getCurrentState [] startFrameOnly 0).1],
    isComplete := false, isRunning := false, isSteppingToView := false,
    error := none, autoPlayTimer := false }

/-- An intermediate interpreter state, not at a view call. -/
def midInterp : JSInterpreter :=
  { stateStack :=
      [ { node := some (Node.other "ExpressionStatement" 0 10), scopeObject := none,
          funcName := none } ],
    value := JSValue.num 1, getProp := noScopeLookup, pseudoToNative := none }

/-- An interpreter state paused at `view([["x","X"],["y","Y"]])`. -/
def atViewInterp : JSInterpreter :=
  { stateStack :=
      [programFrame, { node := some viewNodeXY, scopeObject := none, funcName := none }],
    value := JSValue.num 2, getProp := noScopeLookup, pseudoToNative := none }

/-- A step relation reaching the view call on its second step. -/
def staleStepFn : JSInterpreter → Except String (Bool × JSInterpreter) := fun itp =>
  match itp.value with
  | .num 0 => .ok (true, midInterp)
  | .num 1 => .ok (true, atViewInterp)
  | _ => .ok (false, itp)

/-- The context whose program reaches a view call after two steps. -/
def staleCtx : Ctx :=
  { host := { interpreterAvailable := true, construct := fun _ => .ok startFrameOnly },
    code := "stale demo", varNames := [], stepFn := staleStepFn }

/-- A freshly initialized session for `staleCtx`: history holds
snapshot 0. -/
def staleSession : Session :=
  { interp := some startFrameOnly, history := [(getCurrentState [] startFrameOnly 0).1],
    isComplete := false, isRunning := false, isSteppingToView := false,
    error := none, autoPlayTimer := false }

/-! ## Theorems -/

/-- Unrolling `findVarAux` from any point above the innermost frame that
finds the name lands on that frame's result. -/
theorem findVarAux_innermost (interpreter : JSInterpreter) (stack : List StackFrame)
    (varName : String) (i : Nat)
    (hfound : (findVariableInFrame interpreter (stack.getD i defaultFrame)
      varName i stack.length).found = true)
    (habove : ∀ j, i < j → j < stack.length →
      (findVariableInFrame interpreter (stack.getD j defaultFrame)
        varName j stack.length).found = false) :
    ∀ k, i < k → k ≤ stack.length →
      findVarAux interpreter stack varName k
        = findVariableInFrame interpreter (stack.getD i defaultFrame)
            varName i stack.length := by
  intro k
  induction k with
  | zero => omega
  | succ n ih =>
    intro hik hk
    by_cases hni : n = i
    · subst hni
      simp only [findVarAux, hfound, if_true]
    · have hin : i < n := by omega
      have hnf := habove n hin (by omega)
      simp only [findVarAux, hnf]
      exact ih hin (by omega)

/-- Claim C1: for every stack snapshot and name, if some frame's scope
lookup yields a defined value and every frame nearer the top of the stack
misses, the scope resolver `findVariableInStack` returns exactly that
frame's result — the search walks frames from the top of the stack
downward and stops at the first frame whose lookup yields a value that is
not `undefined`, so an inner binding always shadows outer ones. -/
theorem findVariableInStack_innermost_wins (interpreter : JSInterpreter)
    (stack : List StackFrame) (varName : String) (i : Nat)
    (hi : i < stack.length)
    (hfound : (findVariableInFrame interpreter (stack.getD i defaultFrame)
      varName i stack.length).found = true)
    (habove : ∀ j, i < j → j < stack.length →
      (findVariableInFrame interpreter (stack.getD j defaultFrame)
        varName j stack.length).found = false) :
    findVariableInStack interpreter stack varName
      = findVariableInFrame interpreter (stack.getD i defaultFrame)
          varName i stack.length := by
  exact findVarAux_innermost interpreter stack varName i hfound habove
    stack.length hi le_rfl

/-- Witness for C1 at a concrete two-frame stack binding `x` in both
frames: the resolver returns the inner frame's binding (value `2`,
scope label `Local-0`), not the global one. -/
theorem findVariableInStack_innermost_wins_witness :
    findVariableInStack shadowInterp shadowInterp.stateStack "x"
      = { found := true, value := JSValue.num 2, scopeName := "Local-0" } := by
  have h := findVariableInStack_innermost_wins shadowInterp shadowInterp.stateStack "x" 1
    (by decide) (by decide) (by intro j h1 h2; simp [shadowInterp] at h2; omega)
  rw [h]
  decide

/-- Folding the collection step over any name list never records a name
whose stack resolution failed. -/
theorem collect_fold_absent (interpreter : JSInterpreter) (stack : List StackFrame)
    (varName : String)
    (hnf : (findVariableInStack interpreter stack varName).found = false) :
    ∀ (names : List String) (acc : List (String × JSValue)),
      varName ∉ acc.map Prod.fst →
      varName ∉ (names.foldl (collectStep interpreter stack) acc).map Prod.fst := by
  intro names
  induction names with
  | nil => intro acc h; simpa using h
  | cons nm rest ih =>
    intro acc hacc
    simp only [List.foldl_cons]
    apply ih
    unfold collectStep
    dsimp only
    split
    · rename_i hguard
      simp only [Bool.and_eq_true] at hguard
      simp only [List.map_append, List.map_cons, List.map_nil, List.mem_append,
        List.mem_cons, List.not_mem_nil, or_false]
      rintro (h | h)
      · exact hacc h
      · subst h
        rw [hnf] at hguard
        simp at hguard
    · exact hacc

/-- Claim C8: the variable collector returns the empty mapping on an empty
stack or an empty requested-name list, and a requested name that no frame
resolves to a defined value is simply absent from the result mapping (no
exception is modelled because none can escape: frame lookup failures are
non-fatal misses). -/
theorem collectVariablesFromStack_empty_and_absent (interpreter : JSInterpreter)
    (stack : List StackFrame) (varNames : List String) (varName : String) :
    collectVariablesFromStack interpreter [] varNames = []
    ∧ collectVariablesFromStack interpreter stack [] = []
    ∧ ((findVariableInStack interpreter stack varName).found = false →
        varName ∉ (collectVariablesFromStack interpreter stack varNames).map Prod.fst) := by
  refine ⟨by simp [collectVariablesFromStack], by simp [collectVariablesFromStack], ?_⟩
  intro hnf
  unfold collectVariablesFromStack
  split
  · simp
  · exact collect_fold_absent interpreter stack varName hnf varNames [] (by simp)

/-- A string beginning with `Local-` is never `Global`. -/
theorem local_ne_global (s : String) : "Local-" ++ s ≠ "Global" := by
  intro h
  have hlen := congrArg String.length h
  rw [String.length_append] at hlen
  have hz : s.length = 0 := by
    have : ("Local-" : String).length = 6 := by decide
    have : ("Global" : String).length = 6 := by decide
    omega
  have hs : s = "" := by
    cases s with
    | mk data =>
      cases data with
      | nil => rfl
      | cons c cs => simp [String.length, List.length] at hz
  subst hs
  exact absurd h (by decide)

/-- Claim C9: the scope resolver labels the owning scope `Global` exactly
for the bottom frame (stack index 0), labels every other frame
`Local-(stackLength - 1 - index)` — depth counted inward from the top of
the stack — and in particular labels the top-of-stack frame `Local-0`
whenever the stack has at least two frames. -/
theorem getScopeName_labels (i n : Nat) :
    (getScopeName i n = "Global" ↔ i = 0)
    ∧ (i ≠ 0 → getScopeName i n = "Local-" ++ toString (n - 1 - i))
    ∧ (2 ≤ n → getScopeName (n - 1) n = "Local-0") := by
  refine ⟨⟨fun h => ?_, fun h => by simp [getScopeName, h]⟩,
    fun h => by simp [getScopeName, h], fun h => ?_⟩
  · by_contra hne
    rw [getScopeName, if_neg hne] at h
    exact local_ne_global _ h
  · have hne : n - 1 ≠ 0 := by omega
    rw [getScopeName, if_neg hne]
    have : n - 1 - (n - 1) = 0 := by omega
    rw [this]
    decide

/-- Claim C7: initialization fails, reporting an error and returning no
engine, exactly when the interpreter capability is unavailable, the
program text is empty or whitespace-only, or construction (parsing) of
the program throws — and when the guards pass and construction throws,
the reported message wraps the underlying parse error text. -/
theorem initializeInterpreter_failure_cases (host : Host) (code : String) :
    ((∃ e, initializeInterpreter host code = .error e) ↔
      (host.interpreterAvailable = false ∨ code.trim = ""
        ∨ ∃ m, host.construct code = .error m))
    ∧ (∀ m, host.interpreterAvailable = true → code.trim ≠ "" →
        host.construct code = .error m →
        initializeInterpreter host code = .error ("Code error: " ++ m)) := by
  constructor
  · constructor
    · rintro ⟨e, he⟩
      unfold initializeInterpreter at he
      split at he
      · left; assumption
      · split at he
        · right; left; assumption
        · rcases hc : host.construct code with m | v
          · exact Or.inr (Or.inr ⟨m, rfl⟩)
          · rw [hc] at he; simp at he
    · intro h
      unfold initializeInterpreter
      split
      · exact ⟨_, rfl⟩
      · split
        · exact ⟨_, rfl⟩
        · rcases h with h | h | ⟨m, hm⟩
          · simp_all
          · simp_all
          · rw [hm]; exact ⟨_, rfl⟩
  · intro m h1 h2 h3
    unfold initializeInterpreter
    rw [if_neg (by simp [h1]), if_neg h2, h3]

/-- Claim C10: when `refresh` finds the program text empty or
whitespace-only, or interpreter construction fails, the resulting session
is exactly the torn-down one — no interpreter, empty history (every
previous snapshot discarded), all control flags cleared, auto-play timer
cancelled — with only the error message set; nothing of the previous
session survives (the result does not depend on it). -/
theorem refresh_failure_resets (ctx : Ctx) (s : Session) :
    (ctx.code.trim = "" →
      refresh ctx s = { clearedSession with error := some "No code to debug" })
    ∧ (∀ e, ctx.code.trim ≠ "" →
        initializeInterpreter ctx.host ctx.code = .error e →
        refresh ctx s = { clearedSession with error := some e }) := by
  constructor
  · intro h
    unfold refresh
    rw [if_pos h]
  · intro e h1 h2
    unfold refresh
    rw [if_neg h1, h2]

/-- An element without the literal-pair shape contributes no pair. -/
theorem pairOfElement_eq_none (e : Node) (h : isPairShape e = false) :
    pairOfElement e = none := by
  cases e with
  | arrayExpression elems s t =>
    cases elems with
    | nil => rfl
    | cons a rest =>
      cases rest with
      | nil => rfl
      | cons b rest2 =>
        cases a <;> cases b <;> simp_all [isPairShape, pairOfElement]
  | literal v s t => rfl
  | callExpression c args s t => rfl
  | other k s t => rfl

/-- Claim C3: at the call `view([["x","X"],["y","Y"]])` the breakpoint
detector reports true and the view-argument extractor yields exactly the
ordered pairs ("x","X"), ("y","Y"); any element that is not a literal
array of at least two elements whose first two elements are literal nodes
is skipped and contributes no pair, so that at `view([["x"]])` (arity 1)
the detector still reports true while the extracted sequence is empty. -/
theorem view_breakpoint_roundtrip :
    isAtView itpViewXY = true
    ∧ viewPairsOf itpViewXY = [("x", "X"), ("y", "Y")]
    ∧ (∀ e es, isPairShape e = false →
        List.filterMap pairOfElement (e :: es) = List.filterMap pairOfElement es)
    ∧ isAtView itpViewArity1 = true
    ∧ viewPairsOf itpViewArity1 = [] := by
  refine ⟨by decide, by decide, ?_, by decide, by decide⟩
  intro e es he
  rw [List.filterMap_cons, pairOfElement_eq_none e he]

/-- The first loop makes at most `fuel` further `step()` calls. -/
theorem stepPastView_count_le (ctx : Ctx) (histLen : Nat) :
    ∀ fuel still itp hist count ns,
      (stepPastView ctx histLen fuel still itp hist count ns).count ≤ count + fuel := by
  intro fuel
  induction fuel with
  | zero =>
    intro still itp hist count ns
    cases still <;> simp [stepPastView]
  | succ n ih =>
    intro still itp hist count ns
    cases still
    · simp [stepPastView]
    · rcases h : ctx.stepFn itp with e | ⟨can, itp1⟩
      · simp [stepPastView, h]
      · cases can
        · simp [stepPastView, h]
        · simp only [stepPastView, h]
          have := ih (isAtView itp1) itp1
            (hist ++ [(getCurrentState ctx.varNames itp1 histLen).1]) (count + 1)
            (ns ++ (getCurrentState ctx.varNames itp1 histLen).2)
          simp only [Bool.true_eq_false, if_false]
          omega

/-- The first loop only ever appends to the threaded history. -/
theorem stepPastView_hist_append (ctx : Ctx) (histLen : Nat) :
    ∀ fuel still itp hist count ns,
      ∃ t, (stepPastView ctx histLen fuel still itp hist count ns).hist = hist ++ t := by
  intro fuel
  induction fuel with
  | zero =>
    intro still itp hist count ns
    cases still <;> exact ⟨[], by simp [stepPastView]⟩
  | succ n ih =>
    intro still itp hist count ns
    cases still
    · exact ⟨[], by simp [stepPastView]⟩
    · rcases h : ctx.stepFn itp with e | ⟨can, itp1⟩
      · exact ⟨[], by simp [stepPastView, h]⟩
      · cases can
        · refine ⟨[(getCurrentState ctx.varNames itp1 histLen).1], ?_⟩
          simp [stepPastView, h]
        · obtain ⟨t, ht⟩ := ih (isAtView itp1) itp1
            (hist ++ [(getCurrentState ctx.varNames itp1 histLen).1]) (count + 1)
            (ns ++ (getCurrentState ctx.varNames itp1 histLen).2)
          refine ⟨(getCurrentState ctx.varNames itp1 histLen).1 :: t, ?_⟩
          simp only [stepPastView, h, Bool.true_eq_false, if_false]
          rw [ht, List.append_assoc, List.singleton_append]

/-- The second loop makes at most `fuel` further `step()` calls. -/
theorem seekNextView_count_le (ctx : Ctx) (histLen : Nat) :
    ∀ fuel itp hist count ns,
      (seekNextView ctx histLen fuel itp hist count ns).count ≤ count + fuel := by
  intro fuel
  induction fuel with
  | zero =>
    intro itp hist count ns
    simp [seekNextView]
  | succ n ih =>
    intro itp hist count ns
    rcases h : ctx.stepFn itp with e | ⟨can, itp1⟩
    · simp [seekNextView, h]
    · cases can
      · simp [seekNextView, h]
      · cases hv : isAtView itp1
        · simp only [seekNextView, h, Bool.true_eq_false, if_false, hv]
          have := ih itp1
            (hist ++ [(getCurrentState ctx.varNames itp1 histLen).1]) (count + 1)
            (ns ++ (getCurrentState ctx.varNames itp1 histLen).2)
          simp only [Bool.false_eq_true, if_false]
          omega
        · simp [seekNextView, h, hv]

/-- The second loop only ever appends to the threaded history. -/
theorem seekNextView_hist_append (ctx : Ctx) (histLen : Nat) :
    ∀ fuel itp hist count ns,
      ∃ t, (seekNextView ctx histLen fuel itp hist count ns).hist = hist ++ t := by
  intro fuel
  induction fuel with
  | zero =>
    intro itp hist count ns
    exact ⟨[], by simp [seekNextView]⟩
  | succ n ih =>
    intro itp hist count ns
    rcases h : ctx.stepFn itp with e | ⟨can, itp1⟩
    · exact ⟨[], by simp [seekNextView, h]⟩
    · cases can
      · refine ⟨[(getCurrentState ctx.varNames itp1 histLen).1], ?_⟩
        simp [seekNextView, h]
      · cases hv : isAtView itp1
        · obtain ⟨t, ht⟩ := ih itp1
            (hist ++ [(getCurrentState ctx.varNames itp1 histLen).1]) (count + 1)
            (ns ++ (getCurrentState ctx.varNames itp1 histLen).2)
          refine ⟨(getCurrentState ctx.varNames itp1 histLen).1 :: t, ?_⟩
          simp only [seekNextView, h, Bool.true_eq_false, if_false, hv,
            Bool.false_eq_true]
          rw [ht, List.append_assoc, List.singleton_append]
        · refine ⟨[(getCurrentState ctx.varNames itp1 histLen).1], ?_⟩
          simp [seekNextView, h, hv]

/-- Master case analysis of `stepToView`: the shared step counter never
exceeds the ceiling, the ceiling return paths behave as `ceilingBehaviour`
states, and the invocation history is only ever appended to. -/
theorem stepToView_master (ctx : Ctx) (s : Session) :
    (stepToView ctx s).2.1 ≤ maxSteps
    ∧ ceilingBehaviour s (stepToView ctx s)
    ∧ ∃ t, (stepToView ctx s).1.history = s.history ++ t := by
  unfold stepToView
  cases hint : s.interp with
  | none => exact ⟨by simp, by simp [ceilingBehaviour], ⟨[], by simp⟩⟩
  | some interpreter =>
    cases hcomp : s.isComplete with
    | true => exact ⟨by simp, by simp [ceilingBehaviour], ⟨[], by simp⟩⟩
    | false =>
      simp only [Bool.false_eq_true, if_false]
      rcases hp1 : (if isAtView interpreter then
          stepPastView ctx s.history.length maxSteps true interpreter s.history 0 []
        else ⟨interpreter, s.history, 0, [], P1Exit.stopped⟩) with ⟨itp1, hist1, c1, ns1, e1⟩
      have hc1 : c1 ≤ maxSteps := by
        split at hp1
        · have h := stepPastView_count_le ctx s.history.length maxSteps true
            interpreter s.history 0 []
          rw [hp1] at h
          simpa using h
        · cases hp1
          exact Nat.zero_le _
      have hh1 : ∃ t, hist1 = s.history ++ t := by
        split at hp1
        · have h := stepPastView_hist_append ctx s.history.length maxSteps true
            interpreter s.history 0 []
          rw [hp1] at h
          simpa using h
        · cases hp1
          exact ⟨[], by simp⟩
      cases e1 with
      | threw e => exact ⟨hc1, by simp [ceilingBehaviour], hh1⟩
      | completed => exact ⟨hc1, by simp [ceilingBehaviour], hh1⟩
      | stopped =>
        dsimp only
        by_cases hcl : maxSteps ≤ c1
        · rw [if_pos hcl]
          exact ⟨hc1, by simp [ceilingBehaviour, hcomp], hh1⟩
        · rw [if_neg hcl]
          rcases hp2 : seekNextView ctx s.history.length
              (maxSteps - c1) itp1 hist1 c1 ns1 with ⟨itp2, hist2, c2, ns2, e2⟩
          have hc2 : c2 ≤ maxSteps := by
            have h := seekNextView_count_le ctx s.history.length
              (maxSteps - c1) itp1 hist1 c1 ns1
            rw [hp2] at h
            simp only at h
            omega
          have hh2 : ∃ t, hist2 = s.history ++ t := by
            have h := seekNextView_hist_append ctx s.history.length
              (maxSteps - c1) itp1 hist1 c1 ns1
            rw [hp2] at h
            simp only at h
            obtain ⟨t2, ht2⟩ := h
            obtain ⟨t1, ht1⟩ := hh1
            exact ⟨t1 ++ t2, by rw [ht2, ht1, List.append_assoc]⟩
          cases e2 with
          | threw e => exact ⟨hc2, by simp [ceilingBehaviour], hh2⟩
          | completed => exact ⟨hc2, by simp [ceilingBehaviour], hh2⟩
          | found => exact ⟨hc2, by simp [ceilingBehaviour], hh2⟩
          | stopped =>
            dsimp only
            by_cases hcl2 : maxSteps ≤ c2
            · rw [if_pos hcl2]
              exact ⟨hc2, by simp [ceilingBehaviour, hcomp], hh2⟩
            · rw [if_neg hcl2]
              exact ⟨hc2, by simp [ceilingBehaviour], hh2⟩

/-- `stepForward` only ever appends to the history (one snapshot on a
successful step, nothing on a guard return or a thrown step). -/
theorem stepForward_hist_append (ctx : Ctx) (s : Session) :
    ∃ t, (stepForward ctx s).1.history = s.history ++ t := by
  unfold stepForward
  cases hint : s.interp with
  | none => exact ⟨[], by simp⟩
  | some interpreter =>
    cases hcomp : s.isComplete with
    | true => exact ⟨[], by simp⟩
    | false =>
      simp only [Bool.false_eq_true, if_false]
      rcases h : ctx.stepFn interpreter with e | ⟨can, itp1⟩
      · exact ⟨[], by simp⟩
      · refine ⟨[(getCurrentState ctx.varNames itp1 s.history.length).1], ?_⟩
        dsimp only
        cases can <;>
          cases hv : (s.isSteppingToView && isAtView itp1) <;>
            simp [hv]

/-- Claim C2: every `stepToView` invocation performs at most 100000
`step()` calls in total across its two phases (they share one counter),
and on either ceiling return path it surfaces the corresponding
"Maximum steps" error, clears the stepping-to-breakpoint flag, and
returns without marking the session complete (`ceilingBehaviour`). -/
theorem stepToView_terminates_within_ceiling (ctx : Ctx) (s : Session) :
    (stepToView ctx s).2.1 ≤ 100000 ∧ ceilingBehaviour s (stepToView ctx s) := by
  obtain ⟨h1, h2, _⟩ := stepToView_master ctx s
  exact ⟨h1, h2⟩

/-- Claim C4: the execution history is append-only.  `stepBackward`
returns the session untouched (it changes no history entry, no flag, and
has no access to the step engine), emits nothing when history has at most
one entry, and otherwise re-emits exactly the second-to-last snapshot's
recorded highlight range; `stepForward` and `stepToView` leave the
invocation history as a prefix of the new history — they only append,
never remove or mutate existing snapshots. -/
theorem history_append_only (ctx : Ctx) (s : Session) :
    (stepBackward s).1 = s
    ∧ (s.history.length ≤ 1 → (stepBackward s).2 = none)
    ∧ (2 ≤ s.history.length →
        (stepBackward s).2 = some
          ((s.history.getD (s.history.length - 2) defaultDebugState).highlightStart,
           (s.history.getD (s.history.length - 2) defaultDebugState).highlightStop))
    ∧ (∃ t, (stepForward ctx s).1.history = s.history ++ t)
    ∧ (∃ t, (stepToView ctx s).1.history = s.history ++ t) := by
  refine ⟨?_, ?_, ?_, stepForward_hist_append ctx s, (stepToView_master ctx s).2.2⟩
  · unfold stepBackward
    split <;> rfl
  · intro h
    simp [stepBackward, h]
  · intro h
    rw [stepBackward, if_neg (by omega)]

/-- The notifications a captured snapshot emits, in closed form: exactly
one — carrying the extracted ordered pairs and the values collected for
their names — when the interpreter is at a `view` breakpoint whose
extracted pair list is nonempty, and none otherwise. -/
theorem getCurrentState_notifs (varNames : List String) (interpreter : JSInterpreter)
    (stepNumber : Nat) :
    (getCurrentState varNames interpreter stepNumber).2 =
      (if isAtView interpreter && !(viewPairsOf interpreter).isEmpty then
        [{ viewVariables := collectVariablesFromStack interpreter interpreter.stateStack
             ((viewPairsOf interpreter).map Prod.fst),
           pairs := viewPairsOf interpreter }]
      else []) := by
  cases hl : interpreter.stateStack.getLast? with
  | none => simp [getCurrentState, viewPairsOf, isAtView, hl]
  | some frame =>
    cases hn : frame.node with
    | none => simp [getCurrentState, viewPairsOf, isAtView, hl, hn]
    | some n =>
      cases hcal : (n.callee == some "view") with
      | false => simp [getCurrentState, viewPairsOf, isAtView, hl, hn, hcal]
      | true =>
        cases ha : n.argList.head? with
        | none => simp [getCurrentState, viewPairsOf, isAtView, hl, hn, hcal, ha]
        | some firstArg =>
          cases firstArg with
          | arrayExpression elements s1 e1 =>
            by_cases hp : (elements.filterMap pairOfElement).isEmpty
            · simp [getCurrentState, viewPairsOf, isAtView, hl, hn, hcal, ha, hp]
            · simp [getCurrentState, viewPairsOf, isAtView, hl, hn, hcal, ha, hp]
          | literal v s1 e1 =>
            simp [getCurrentState, viewPairsOf, isAtView, hl, hn, hcal, ha]
          | callExpression c args s1 e1 =>
            simp [getCurrentState, viewPairsOf, isAtView, hl, hn, hcal, ha]
          | other k s1 e1 =>
            simp [getCurrentState, viewPairsOf, isAtView, hl, hn, hcal, ha]

/-- Counterexample to claim C6 as stated: a successful step whose new
position is at the breakpoint `view([["x"]])` — the detector reports
true — pushes no notification at all, because the extracted pair list is
empty; so the controller does not notify on every breakpoint hit. -/
theorem stepForward_breakpoint_without_notification :
    (stepForward arity1Ctx arity1Session).1.interp = some itpViewArity1
    ∧ isAtView itpViewArity1 = true
    ∧ (stepForward arity1Ctx arity1Session).2 = [] := by
  refine ⟨rfl, by decide, by decide⟩

/-- Claim C6 amended: on every successful step the controller notifies
the downstream formula/variable store at most once, and exactly once when
the new position is at a `view` breakpoint from which the extractor
yields at least one (name, label) pair — the notification carrying those
ordered pairs together with the values resolved for their names; when the
extractor yields no pairs (malformed or missing argument), no
notification is pushed. -/
theorem stepForward_notification_spec (ctx : Ctx) (s : Session)
    (interpreter itp1 : JSInterpreter) (canContinue : Bool)
    (hi : s.interp = some interpreter) (hc : s.isComplete = false)
    (hs : ctx.stepFn interpreter = .ok (canContinue, itp1)) :
    (stepForward ctx s).2 =
      (if isAtView itp1 && !(viewPairsOf itp1).isEmpty then
        [{ viewVariables := collectVariablesFromStack itp1 itp1.stateStack
             ((viewPairsOf itp1).map Prod.fst),
           pairs := viewPairsOf itp1 }]
      else []) := by
  simp only [stepForward, hi, hc, hs, Bool.false_eq_true, if_false]
  rw [← getCurrentState_notifs ctx.varNames itp1 s.history.length]

/-- Witness for the amended C6: stepping onto `view([["x","X value"]])`
with `x` bound to `7` pushes exactly one notification carrying the pair
("x", "X value") and the resolved value `7`. -/
theorem stepForward_notification_spec_witness :
    (stepForward witCtx witSession).2 =
      [{ viewVariables := [("x", JSValue.num 7)], pairs := [("x", "X value")] }] := by
  have h := stepForward_notification_spec witCtx witSession startFrameOnly witViewInterp
    true rfl rfl rfl
  rw [h]
  decide

/-- Claim C5 fails on the code: one `stepToView` invocation that appends
two snapshots gives both the same step number — the invocation-time
`history.length` (a stale React closure value) — so the history's step
fields read 0, 1, 1 where the claim requires the snapshot at position `i`
to carry step `i`, i.e. 0, 1, 2. -/
theorem stepToView_stale_step_indices :
    ((stepToView staleCtx staleSession).1.history.map fun st => st.step) = [0, 1, 1]
    ∧ [0, 1, 1] ≠ ([0, 1, 2] : List Nat) := by
  exact ⟨by decide, by decide⟩
